import Mathlib

/-!
A shallow embedding of the sdformat DOM loaders and the experimental frame-graph
pose resolution of this repository (`Link.cc`, `Model.cc`, `Root.cc`).

Rigid transforms (ignition::math::Pose3d and the Matrix4d values built from
them) are modelled as elements of an arbitrary group `G`: `*` is the matrix
product used at `Link.cc` lines 388-407 and `⁻¹` is `Matrix4d::Inverse`; the
conversions `Matrix4d(pose)` and `Matrix4d::Pose()` are group isomorphisms on
rigid transforms and are embedded as the identity.  Floating-point data that
never meets the transform algebra (masses, inertia entries) is not represented;
the `MassMatrix3d::IsValid` check is an abstract boolean parameter.

Console output performed inside `Link::Pose` (std::cout and std::cerr writes)
is made explicit: the embedded `Link.Pose` returns the list of write events
alongside the transform, one event constructor per stream-write statement of
the source.

Dereferencing `begin()` of an empty vertex map (flagged by the source's own
`\todo` comments) is undefined behaviour in the C++ and is modelled as
`Option.none`.
-/

/-- Error codes from `sdf/Error.hh` used by the embedded loaders. -/
inductive ErrorCode where
  | attributeInvalid
  | attributeMissing
  | elementIncorrectType
  | elementInvalid
  | duplicateName
  | linkInertiaInvalid
deriving DecidableEq

/-- One accumulated `sdf::Error`: an error code together with its message. -/
structure Err where
  code : ErrorCode
  message : String
deriving DecidableEq

/-- One console write performed by `Link::Pose` (`Link.cc` lines 345-348, 358,
378-379, 415 and 422).  Each constructor corresponds to one stream-write
statement of the source; `errror` (sic, the source's spelling) is the sole
std::cerr write, every other constructor is a std::cout write. -/
inductive ConsoleWrite where
  | sourceDestHeader (src dst : String)
  | sourceId (id : Nat)
  | destId (id : Nat)
  | graphDump
  | dijkstraRow (id : Nat) (cost : Option Nat) (previous : Nat)
  | edgeInfo (key head tail : Nat) (sign : Int)
  | errror
  | finalPoseDump
deriving DecidableEq

/-- Whether a write event goes to std::cerr (only the `ERRROR!` write does). -/
def ConsoleWrite.isStderr : ConsoleWrite → Bool
  | .errror => true
  | _ => false

/-- Modelled from the spec: the generic attributed element tree (§2 item 1 and
§6), the external collaborator the loaders consume.  `attrsList` holds the
string attributes, `poseElem` a parsed `<pose>` child (transform value and its
`frame` attribute, the latter defaulting to `""`), `children` the child
elements in document order, and `parentName` the `name` attribute of the
parent element when `GetParent()` is non-null. -/
inductive Element (G : Type) where
  | mk (tag : String) (attrsList : List (String × String))
      (poseElem : Option (G × String)) (children : List (Element G))
      (parentName : Option String)

/-- The element's tag, `Element::GetName()` in the source. -/
def Element.tag {G : Type} : Element G → String
  | .mk t _ _ _ _ => t

/-- The element's string attributes. -/
def Element.attrsList {G : Type} : Element G → List (String × String)
  | .mk _ a _ _ _ => a

/-- The element's parsed `<pose>` child, if any. -/
def Element.poseElem {G : Type} : Element G → Option (G × String)
  | .mk _ _ p _ _ => p

/-- The element's children in document order. -/
def Element.children {G : Type} : Element G → List (Element G)
  | .mk _ _ _ c _ => c

/-- The `name` attribute of the parent element (`GetParent()`), if any. -/
def Element.parentName {G : Type} : Element G → Option String
  | .mk _ _ _ _ p => p

/-- First-match lookup in an attribute list. -/
def lookupAttr : List (String × String) → String → Option String
  | [], _ => none
  | (k, v) :: rest, n => if k == n then some v else lookupAttr rest n

/-- `Element::Get<std::string>(name, default)`: the attribute value and whether
it was present (spec §6 boundary `get<T>(attrName, default) -> (value,
wasPresent)`). -/
def Element.getStr {G : Type} (e : Element G) (n dflt : String) : String × Bool :=
  match lookupAttr e.attrsList n with
  | some v => (v, true)
  | none => (dflt, false)

/-- `Element::Get<bool>(name, default)`; sdf::Param parses `true`/`1` as true. -/
def Element.getBool {G : Type} (e : Element G) (n : String) (dflt : Bool) : Bool × Bool :=
  match lookupAttr e.attrsList n with
  | some v => (v == "true" || v == "1", true)
  | none => (dflt, false)

/-- The children bearing a given tag, in document order: the
`GetElement(tag)` / `GetNextElement(tag)` sibling iteration of the source. -/
def Element.childrenOfTag {G : Type} (e : Element G) (t : String) : List (Element G) :=
  e.children.filter (fun c => c.tag == t)

/-- `HasElement(tag)`. -/
def Element.hasChildOfTag {G : Type} (e : Element G) (t : String) : Bool :=
  !(e.childrenOfTag t).isEmpty

/-- `GetElement(tag)`: the first child with the tag, if any. -/
def Element.firstChildOfTag {G : Type} (e : Element G) (t : String) : Option (Element G) :=
  (e.childrenOfTag t).head?

/-- Modelled from the spec: `loadName` (Utils.cc, not under src/) reads the
`name` attribute, reporting whether it was set. -/
def loadName {G : Type} (e : Element G) : Option String :=
  lookupAttr e.attrsList "name"

/-- Modelled from the spec: `loadPose` (Utils.cc, not under src/) reads the
`<pose>` child's transform and its `frame` attribute, leaving the caller's
defaults untouched when the child is absent. -/
def loadPose {G : Type} (e : Element G) : Option (G × String) :=
  e.poseElem

/-- `ignition::math::graph::kNullId` (`MAX_UI64`). -/
def kNullId : Nat := 18446744073709551615

/-- A vertex of the frame graph: `ignition::math::graph::Vertex<Matrix4d>`,
holding its id, its name and its transform payload. -/
structure Vertex (G : Type) where
  id : Nat
  name : String
  data : G
deriving DecidableEq

/-- A directed edge of the frame graph:
`ignition::math::graph::DirectedEdge<int>` with its `int` sign payload. -/
structure DirEdge where
  tail : Nat
  head : Nat
  data : Int
deriving DecidableEq

/-- The `sdf::FrameGraph`
(`ignition::math::graph::DirectedGraph<Matrix4d, int>`): vertices in insertion
order (ids are assigned by an incrementing counter, so insertion order is
ascending id order), edges in insertion order. -/
structure FrameGraph (G : Type) where
  vertices : List (Vertex G)
  edges : List DirEdge
  nextId : Nat
deriving DecidableEq

/-- A freshly constructed, empty `FrameGraph` (`new FrameGraph`). -/
def FrameGraph.empty {G : Type} : FrameGraph G := ⟨[], [], 0⟩

/-- `Graph::AddVertex(name, data)`: appends a vertex under the next free id and
returns that id. -/
def FrameGraph.AddVertex {G : Type} (g : FrameGraph G) (n : String) (d : G) :
    Nat × FrameGraph G :=
  (g.nextId,
    { g with vertices := g.vertices ++ [⟨g.nextId, n, d⟩], nextId := g.nextId + 1 })

/-- Whether a vertex with the given id exists. -/
def FrameGraph.hasVertex {G : Type} (g : FrameGraph G) (i : Nat) : Bool :=
  g.vertices.any (fun v => v.id == i)

/-- `Graph::AddEdge({tail, head}, data)`: the ignition graph inserts the edge
only when both endpoint vertices exist (otherwise it returns `NullEdge` and
the graph is unchanged). -/
def FrameGraph.AddEdge {G : Type} (g : FrameGraph G) (t h : Nat) (d : Int) :
    FrameGraph G :=
  if g.hasVertex t && g.hasVertex h then { g with edges := g.edges ++ [⟨t, h, d⟩] }
  else g

/-- The ids of the vertices carrying a given name, as `Graph::Vertices(name)`
collects them. -/
def FrameGraph.namedIds {G : Type} (g : FrameGraph G) (n : String) : List Nat :=
  (g.vertices.filter (fun v => v.name == n)).map Vertex.id

/-- Minimum of a list of naturals, `none` on the empty list. -/
def minNat? : List Nat → Option Nat
  | [] => none
  | x :: xs =>
    some (match minNat? xs with
          | none => x
          | some m => min x m)

/-- `Graph::Vertices(name)` returns a `std::map` keyed by vertex id, so
`begin()->first` is the least id among the vertices with that name; `none`
when no vertex has the name (in which case the source's `begin()` dereference
is undefined behaviour). -/
def FrameGraph.firstVertexIdNamed {G : Type} (g : FrameGraph G) (n : String) :
    Option Nat :=
  minNat? (g.namedIds n)

/-- `Graph::EdgeFromVertices(tail, head)`: the first directed edge from `tail`
to `head`; `none` models `NullEdge`. -/
def FrameGraph.EdgeFromVertices {G : Type} (g : FrameGraph G) (t h : Nat) :
    Option DirEdge :=
  g.edges.find? (fun e => e.tail == t && e.head == h)

/-- `Graph::VertexFromId(id)`; `none` models `NullVertex`. -/
def FrameGraph.VertexFromId {G : Type} (g : FrameGraph G) (i : Nat) :
    Option (Vertex G) :=
  g.vertices.find? (fun v => v.id == i)

/-- One entry of the map returned by Dijkstra:
`ignition::math::graph::CostInfo`, the shortest-path cost from the source
(`none` models the `infinity` of unreached vertices) and the previous vertex
on that path (`kNullId` for unreached vertices, the source vertex itself for
the source). -/
structure CostInfo where
  cost : Option Nat
  previous : Nat
deriving DecidableEq

/-- First-match lookup in the Dijkstra result list. -/
def lookupAssoc : List (Nat × CostInfo) → Nat → Option CostInfo
  | [], _ => none
  | (k, v) :: rest, n => if k == n then some v else lookupAssoc rest n

/-- Replace the first entry bearing the given key. -/
def updateAssoc : List (Nat × CostInfo) → Nat → CostInfo → List (Nat × CostInfo)
  | [], _, _ => []
  | (k, v) :: rest, n, nv =>
    if k == n then (k, nv) :: rest else (k, v) :: updateAssoc rest n nv

/-- Strict comparison against a possibly-infinite cost. -/
def costLt (n : Nat) : Option Nat → Bool
  | none => true
  | some c => n < c

/-- Relax one directed edge (unit weight, as the source adds every edge with
the default weight 1): improve the head's cost from the tail's when strictly
better, recording the tail as the previous vertex. -/
def relaxEdge (dist : List (Nat × CostInfo)) (e : DirEdge) :
    List (Nat × CostInfo) :=
  match lookupAssoc dist e.tail with
  | some ⟨some cu, _⟩ =>
    match lookupAssoc dist e.head with
    | some ⟨cv, _⟩ =>
      if costLt (cu + 1) cv then updateAssoc dist e.head ⟨some (cu + 1), e.tail⟩
      else dist
    | none => dist
  | _ => dist

/-- Relax every edge once, in insertion order. -/
def relaxRound (es : List DirEdge) (dist : List (Nat × CostInfo)) :
    List (Nat × CostInfo) :=
  es.foldl relaxEdge dist

/-- Iterate edge relaxation a given number of rounds. -/
def relaxRounds (es : List DirEdge) : Nat → List (Nat × CostInfo) →
    List (Nat × CostInfo)
  | 0, dist => dist
  | n + 1, dist => relaxRounds es n (relaxRound es dist)

/-- The initial Dijkstra distance map: the source costs 0 with itself as
previous vertex, every other vertex is at infinity with `kNullId` previous —
exactly the initialisation of `ignition::math::graph::Dijkstra`. -/
def dijkstraInit {G : Type} (g : FrameGraph G) (source : Nat) :
    List (Nat × CostInfo) :=
  g.vertices.map (fun v =>
    (v.id, if v.id == source then CostInfo.mk (some 0) source
           else CostInfo.mk none kNullId))

/-- `ignition::math::graph::Dijkstra(graph, from, to)` on unit edge weights:
since every edge of this graph is added with the default weight 1, the
priority-queue search of the library computes exactly the fixpoint of
unit-weight relaxation, reached after at most `|V|` rounds.  The library's
early exit on reaching `to` finalises the same entries along the returned
walk, so it is observationally irrelevant here. -/
def FrameGraph.Dijkstra {G : Type} (g : FrameGraph G) (source : Nat) :
    List (Nat × CostInfo) :=
  relaxRounds g.edges g.vertices.length (dijkstraInit g source)

/-- The path walk of `Link::Pose` (`Link.cc` lines 361-421): starting from the
destination vertex, repeatedly step to the previous vertex of the Dijkstra
result, composing the stored vertex transform (or its inverse when the edge
sign is negative), multiplying in the link's own stored pose on reaching the
source vertex.  A missing edge prints `ERRROR!` to std::cerr and stops with
the accumulator as is.  The fuel argument only guards Lean totality: the
source's `while (!done)` loop follows the Dijkstra previous-pointers, whose
chains are shorter than the vertex count. -/
def poseWalk {G : Type} [Group G] (g : FrameGraph G)
    (result : List (Nat × CostInfo)) (srcId : Nat) (storedPose : G) :
    Nat → Nat → G → List ConsoleWrite → Option (G × List ConsoleWrite)
  | 0, _, _, _ => none
  | fuel + 1, key, acc, out =>
    match lookupAssoc result key with
    | none => none
    | some ci =>
      let nextV := ci.previous
      match g.EdgeFromVertices nextV key with
      | some e =>
        let out := out ++ [.edgeInfo key e.head e.tail e.data]
        let inv : Bool := e.data < 0
        match g.VertexFromId key with
        | none => none
        | some v =>
          let acc := if inv then acc * v.data⁻¹ else acc * v.data
          if nextV == srcId then
            let acc := if inv then acc * storedPose⁻¹ else acc * storedPose
            some (acc, out)
          else
            poseWalk g result srcId storedPose fuel nextV acc out
      | none => some (acc, out ++ [.errror])

/-- A loaded visual; its DOM fields beyond the name are absent from src/ and
collapsed into the name used by the sibling-uniqueness check and the by-name
accessors. -/
structure VisualState where
  name : String
deriving DecidableEq

/-- A loaded collision, reduced to its name like `VisualState`. -/
structure CollisionState where
  name : String
deriving DecidableEq

/-- The fields of `sdf::LinkPrivate` that `Link::Load` and `Link::Pose` read
and write (the shared frame-graph handle is passed to `Link.Pose` explicitly,
because in the source it aliases the graph the enclosing model keeps
mutating). -/
structure LinkState (G : Type) where
  name : String
  pose : G
  poseFrame : String
  visuals : List VisualState
  collisions : List CollisionState
  inertialPose : G
  sdf : Option (Element G)

/-- `Link::Pose(frame)` (`Link.cc` lines 328-425), returning the resolved
transform together with every console write the call performs, in order.  An
empty frame returns the stored pose and writes nothing; otherwise the call
resolves both names to least vertex ids (`none` models the undefined
`begin()` dereference when a name has no vertex), prints the header and graph
dump, runs Dijkstra from the source vertex, prints one row per result entry,
walks the path and finally prints the composed transform. -/
def Link.Pose {G : Type} [Group G] (g : FrameGraph G) (st : LinkState G)
    (frame : String) : Option (G × List ConsoleWrite) :=
  if frame == "" then some (st.pose, [])
  else
    match g.firstVertexIdNamed st.name, g.firstVertexIdNamed frame with
    | some srcId, some dstId =>
      let out : List ConsoleWrite :=
        [.sourceDestHeader st.name frame, .sourceId srcId, .destId dstId,
         .graphDump]
      let result := g.Dijkstra srcId
      let out := out ++ result.map (fun p => .dijkstraRow p.1 p.2.cost p.2.previous)
      match poseWalk g result srcId st.pose (g.vertices.length + 1) dstId 1 out with
      | some (acc, out) => some (acc, out ++ [.finalPoseDump])
      | none => none
    | _, _ => none

/-- A freshly constructed `Link` (`sdf::LinkPrivate`'s member defaults). -/
def LinkState.init {G : Type} [Group G] : LinkState G :=
  ⟨"", 1, "", [], [], 1, none⟩

/-- `Link::Name()`. -/
def Link.Name {G : Type} (st : LinkState G) : String := st.name

/-- `Link::VisualCount()`. -/
def Link.VisualCount {G : Type} (st : LinkState G) : Nat := st.visuals.length

/-- `Link::VisualByIndex(i)` (`Link.cc` lines 267-272): the `i`-th loaded
visual when `i` is in range, the null pointer (`none`) otherwise. -/
def Link.VisualByIndex {G : Type} (st : LinkState G) (i : Nat) : Option VisualState :=
  if h : i < st.visuals.length then some (st.visuals.get ⟨i, h⟩) else none

/-- `Link::CollisionCount()`. -/
def Link.CollisionCount {G : Type} (st : LinkState G) : Nat := st.collisions.length

/-- `Link::CollisionByIndex(i)` (`Link.cc` lines 294-299). -/
def Link.CollisionByIndex {G : Type} (st : LinkState G) (i : Nat) : Option CollisionState :=
  if h : i < st.collisions.length then some (st.collisions.get ⟨i, h⟩) else none

/-- `Link::VisualByName(name)`: first match. -/
def Link.VisualByName {G : Type} (st : LinkState G) (n : String) : Option VisualState :=
  st.visuals.find? (fun v => v.name == n)

/-- The frame-registration block of `Link::Load` (`Link.cc` lines 171-192):
add a vertex for the link carrying its stored pose, resolve the pose-frame
name to the least matching vertex id (the lookup runs on the graph that
already contains the link's own vertex), then connect parent to child with
sign `-1` ("apply the inverse of the stored transform") and child to parent
with sign `+1` ("apply the transform as stored").  `none` models the
undefined `begin()` dereference flagged by the source's `\todo` when the
pose-frame name has no vertex. -/
def Link.RegisterFrame {G : Type} (g : FrameGraph G) (n : String) (p : G)
    (poseFrame : String) : Option (FrameGraph G) :=
  let g1 := (g.AddVertex n p).2
  match g1.firstVertexIdNamed poseFrame with
  | none => none
  | some parentId =>
    some ((g1.AddEdge parentId g.nextId (-1)).AddEdge g.nextId parentId 1)

/-- A loaded joint, reduced to its name (Joint.cc is not under src/). -/
structure JointState where
  name : String
deriving DecidableEq

/-- A loaded world as `Root::Load` sees it: its name (checked by the duplicate
detection) plus the remaining World DOM fields, which are absent from src/
and collapsed into an opaque payload. -/
structure WorldState where
  name : String
  payload : Nat
deriving DecidableEq

/-- The fields of `sdf::ModelPrivate`. -/
structure ModelState (G : Type) where
  name : String
  isStatic : Bool
  selfCollide : Bool
  allowAutoDisable : Bool
  enableWind : Bool
  pose : G
  poseFrame : String
  links : List (LinkState G)
  joints : List JointState
  frameGraph : Option (FrameGraph G)
  sdf : Option (Element G)

/-- A freshly constructed `Model` (`sdf::ModelPrivate`'s member defaults). -/
def ModelState.init {G : Type} [Group G] : ModelState G :=
  ⟨"", false, false, true, false, 1, "", [], [], none, none⟩

/-- The collaborators of the embedded loaders whose code is not under src/:
the Visual/Collision/Joint/World/Light/Actor loaders, the frame-semantics
graph build/validation error output, and the floating-point
`MassMatrix3d::IsValid` check of `Link::Load`, abstracted as parameters. -/
structure ExternalLoaders (G : Type) where
  visualLoad : Element G → Option (FrameGraph G) →
    Option (VisualState × Option (FrameGraph G) × List Err)
  collisionLoad : Element G → Option (FrameGraph G) →
    Option (CollisionState × Option (FrameGraph G) × List Err)
  jointLoad : Element G → Option (FrameGraph G) →
    Option (JointState × Option (FrameGraph G) × List Err)
  inertiaValid : Element G → Bool
  worldLoad : Element G → WorldState × List Err
  worldGraphErrors : WorldState → List Err
  modelGraphErrors : ModelState G → List Err
  lightLoad : Element G → List Err
  actorLoad : Element G → List Err

/-- Modelled from the spec: `loadUniqueRepeated` (Utils.hh, not under src/)
loads each child element bearing the given tag in document order, threading
the shared frame graph; a sibling whose name duplicates an earlier sibling's
yields a `DuplicateName` error while the sibling load continues (§4.5, §8.5:
the duplicate is shadowed by the earlier sibling in first-match name lookup,
exactly as the in-src world handling of `Root::Load` behaves). -/
def loadUniqueRepeated {G α : Type}
    (loader : Element G → Option (FrameGraph G) →
      Option (α × Option (FrameGraph G) × List Err))
    (nameOf : α → String) (e : Element G) (tag : String)
    (fg : Option (FrameGraph G)) :
    Option (List α × Option (FrameGraph G) × List Err) :=
  go (e.childrenOfTag tag) [] fg []
where
  go : List (Element G) → List α → Option (FrameGraph G) → List Err →
      Option (List α × Option (FrameGraph G) × List Err)
  | [], acc, fg, errs => some (acc, fg, errs)
  | c :: rest, acc, fg, errs =>
    match loader c fg with
    | none => none
    | some (obj, fg, lerrs) =>
      let errs := errs ++ lerrs
      let errs :=
        if acc.any (fun o => nameOf o == nameOf obj) then
          errs ++ [⟨.duplicateName,
            "Found a duplicate name for the sibling element " ++ nameOf obj ++ "."⟩]
        else errs
      go rest (acc ++ [obj]) fg errs

/-- `Link::Load(sdf, frameGraph)` (`Link.cc` lines 142-246): store the element
pointer, reject a non-`<link>` tag with a single fatal error, read name and
pose, default the pose frame to the parent element's name, register the link
in the shared frame graph when one was provided, load visuals and collisions,
and check the inertia.  The outer `Option` is `none` only on the undefined
`begin()` dereference inside the frame registration. -/
def Link.Load {G : Type} [Group G] (ext : ExternalLoaders G) (st : LinkState G)
    (e : Element G) (fg : Option (FrameGraph G)) :
    Option (LinkState G × Option (FrameGraph G) × List Err) :=
  let st := { st with sdf := some e }
  if e.tag != "link" then
    some (st, fg, [⟨.elementIncorrectType,
      "Attempting to load a Link, but the provided SDF element is not a <link>."⟩])
  else
    let stErrs : LinkState G × List Err :=
      match loadName e with
      | some n => ({ st with name := n }, [])
      | none => (st, [⟨.attributeMissing,
          "A link name is required, but the name is not set."⟩])
    let st := stErrs.1
    let errs := stErrs.2
    let st :=
      match loadPose e with
      | some (p, f) => { st with pose := p, poseFrame := f }
      | none => st
    let st :=
      if st.poseFrame == "" then
        match e.parentName with
        | some pn => { st with poseFrame := pn }
        | none => st
      else st
    let fgStep : Option (Option (FrameGraph G)) :=
      match fg with
      | none => some none
      | some g => (Link.RegisterFrame g st.name st.pose st.poseFrame).map some
    match fgStep with
    | none => none
    | some fg =>
      match loadUniqueRepeated ext.visualLoad VisualState.name e "visual" fg with
      | none => none
      | some (vis, fg, verrs) =>
        match loadUniqueRepeated ext.collisionLoad CollisionState.name e
            "collision" fg with
        | none => none
        | some (cols, fg, cerrs) =>
          let ipose : G :=
            match e.firstChildOfTag "inertial" with
            | some ie =>
              match ie.poseElem with
              | some (p, _) => p
              | none => 1
            | none => 1
          let errs := errs ++ verrs ++ cerrs
          let errs :=
            if ext.inertiaValid e then errs
            else errs ++ [⟨.linkInertiaInvalid,
              "A link named " ++ st.name ++ " has invalid inertia."⟩]
          some ({ st with
                  visuals := vis, collisions := cols,
                  inertialPose := ipose }, fg, errs)

/-- `Link::Element()`. -/
def Link.Element {G : Type} (st : LinkState G) : Option (Element G) := st.sdf

/-- The explicit-frame edge loop of `Model::Load` (`Model.cc` lines 163-172):
for every `<frame>` vertex recorded during loading, resolve its pose-frame
name to the least matching vertex id and connect parent to child with sign
`-1` and child to parent with sign `+1`.  `none` models the undefined
`begin()` dereference when the pose-frame name has no vertex. -/
def Model.RegisterFrameEdges {G : Type} (g : FrameGraph G) :
    List (Nat × String) → Option (FrameGraph G)
  | [] => some g
  | (vid, pf) :: rest =>
    match g.firstVertexIdNamed pf with
    | none => none
    | some parentId =>
      Model.RegisterFrameEdges ((g.AddEdge parentId vid (-1)).AddEdge vid parentId 1)
        rest

/-- `Model::Load(sdf)` (`Model.cc` lines 96-175): ensure a frame graph exists,
store the element pointer, reject a non-`<model>` tag with a single fatal
error, read name, flags and pose (the pose's frame name is read into a local
the source then discards, so `poseFrame` keeps its default), add the model's
vertex, record the `<frame>` children as vertices, load links and joints
through the shared graph, and finally add the recorded frame edges. -/
def Model.Load {G : Type} [Group G] (ext : ExternalLoaders G)
    (st : ModelState G) (e : Element G) : Option (ModelState G × List Err) :=
  let st :=
    match st.frameGraph with
    | none => { st with frameGraph := some FrameGraph.empty }
    | some _ => st
  let st := { st with sdf := some e }
  if e.tag != "model" then
    some (st, [⟨.elementIncorrectType,
      "Attempting to load a Model, but the provided SDF element is not a <model>."⟩])
  else
    let stErrs : ModelState G × List Err :=
      match loadName e with
      | some n => ({ st with name := n }, [])
      | none => (st, [⟨.attributeMissing,
          "A model name is required, but the name is not set."⟩])
    let st := stErrs.1
    let errs := stErrs.2
    let st := { st with
      isStatic := (e.getBool "static" false).1,
      selfCollide := (e.getBool "self_collide" false).1,
      allowAutoDisable := (e.getBool "allow_auto_disable" true).1,
      enableWind := (e.getBool "enable_wind" false).1 }
    let st :=
      match loadPose e with
      | some (p, _) => { st with pose := p }
      | none => st
    let g :=
      match st.frameGraph with
      | some g => g
      | none => FrameGraph.empty
    let g := (g.AddVertex st.name st.pose).2
    let gEdges :=
      (e.childrenOfTag "frame").foldl
        (fun (acc : FrameGraph G × List (Nat × String)) fe =>
          let pvf : G × String :=
            match loadPose fe with
            | some (p, f) => (p, f)
            | none => (1, "")
          let fname := (fe.getStr "name" "").1
          let vg := acc.1.AddVertex fname pvf.1
          (vg.2, acc.2 ++ [(vg.1, pvf.2)]))
        (g, [])
    match loadUniqueRepeated (Link.Load ext LinkState.init) Link.Name e "link"
        (some gEdges.1) with
    | none => none
    | some (links, fg, lerrs) =>
      let errs := errs ++ lerrs
      match loadUniqueRepeated ext.jointLoad JointState.name e "joint" fg with
      | none => none
      | some (joints, fg, jerrs) =>
        let errs := errs ++ jerrs
        match fg with
        | none => none
        | some g =>
          match Model.RegisterFrameEdges g gEdges.2 with
          | none => none
          | some g =>
            some ({ st with
                    links := links, joints := joints,
                    frameGraph := some g }, errs)

/-- `Model::Name()`. -/
def Model.Name {G : Type} (st : ModelState G) : String := st.name

/-- `Model::Element()`. -/
def Model.Element {G : Type} (st : ModelState G) : Option (Element G) := st.sdf

/-- `Model::LinkCount()`. -/
def Model.LinkCount {G : Type} (st : ModelState G) : Nat := st.links.length

/-- `Model::LinkByIndex(i)` (`Model.cc` lines 244-249). -/
def Model.LinkByIndex {G : Type} (st : ModelState G) (i : Nat) :
    Option (LinkState G) :=
  if h : i < st.links.length then some (st.links.get ⟨i, h⟩) else none

/-- `Model::JointCount()`. -/
def Model.JointCount {G : Type} (st : ModelState G) : Nat := st.joints.length

/-- `Model::JointByIndex(i)` (`Model.cc` lines 271-276). -/
def Model.JointByIndex {G : Type} (st : ModelState G) (i : Nat) :
    Option JointState :=
  if h : i < st.joints.length then some (st.joints.get ⟨i, h⟩) else none

/-- `Model::LinkByName(name)`: first match. -/
def Model.LinkByName {G : Type} (st : ModelState G) (n : String) :
    Option (LinkState G) :=
  st.links.find? (fun l => l.name == n)

/-- The fields of `sdf::RootPrivate` the claims observe (the stored
frame-semantics graphs are not modelled; only the errors their construction
and validation emit are, through `ExternalLoaders`). -/
structure RootState (G : Type) where
  version : String
  worlds : List WorldState
  model : Option (ModelState G)
  light : Option Unit
  actor : Option Unit
  sdf : Option (Element G)

/-- A freshly constructed `Root` (`sdf::RootPrivate`'s member defaults). -/
def RootState.init {G : Type} : RootState G :=
  ⟨"", [], none, none, none, none⟩

/-- `Root::WorldCount()`. -/
def Root.WorldCount {G : Type} (st : RootState G) : Nat := st.worlds.length

/-- `Root::WorldByIndex(i)` (`Root.cc` lines 337-342). -/
def Root.WorldByIndex {G : Type} (st : RootState G) (i : Nat) :
    Option WorldState :=
  if h : i < st.worlds.length then some (st.worlds.get ⟨i, h⟩) else none

/-- `Root::WorldNameExists(name)` (`Root.cc` lines 345-355): first match. -/
def Root.WorldNameExists {G : Type} (st : RootState G) (n : String) : Bool :=
  st.worlds.any (fun w => w.name == n)

/-- Modelled from the spec: `WorldByName` — §6 specifies a `<Child>ByName`
accessor for every child kind, but Root.cc under src/ only has
`WorldNameExists`; like every in-src by-name accessor it returns the first
world whose name matches. -/
def Root.WorldByName {G : Type} (st : RootState G) (n : String) :
    Option WorldState :=
  st.worlds.find? (fun w => w.name == n)

/-- Modelled from the spec: the single supported protocol version
(`SDF_PROTOCOL_VERSION` from the generated sdf_config.h, not under src/); the
claims only compare it for equality, so the concrete value is immaterial. -/
def SDF_PROTOCOL_VERSION : String := "1.7"

/-- Modelled from the spec: the full library version (`SDF_VERSION` from
sdf_config.h), used only as the default of the `version` attribute read. -/
def SDF_VERSION : String := "1.7.0"

/-- `Root::Load(sdf)` (`Root.cc` lines 178-316), taking the document's root
element (`_sdf->Root()`): store the element pointer, read the `version`
attribute (missing version is fatal), reject a version different from the
supported protocol version with a single fatal `AttributeInvalid` error, then
load every `<world>` (building its frame graphs and flagging duplicate world
names among successfully loaded siblings), the first `<model>` (building its
frame graphs through the in-src `Model.Load`), the first `<light>` and the
first `<actor>`. -/
def Root.Load {G : Type} [Group G] (ext : ExternalLoaders G) (st : RootState G)
    (root : Element G) : Option (RootState G × List Err) :=
  let st := { st with sdf := some root }
  let verPair := root.getStr "version" SDF_VERSION
  if !verPair.2 then
    some (st, [⟨.attributeMissing, "SDF does not have a version."⟩])
  else if SDF_PROTOCOL_VERSION != verPair.1 then
    some (st, [⟨.attributeInvalid,
      "SDF version attribute[" ++ verPair.1 ++ "] should match the latest version[" ++
      SDF_PROTOCOL_VERSION ++ "] when loading DOM objects."⟩])
  else
    let st := { st with version := verPair.1 }
    let stErrs :=
      (root.childrenOfTag "world").foldl
        (fun (acc : RootState G × List Err) we =>
          let st := acc.1
          let errors := acc.2
          let wErrs := ext.worldLoad we
          let world := wErrs.1
          let werrs := wErrs.2 ++ ext.worldGraphErrors world
          let errors :=
            if werrs.isEmpty then
              if Root.WorldNameExists st world.name then
                errors ++ [⟨.duplicateName,
                  "World with name[" ++ world.name ++ "] already exists." ++
                  " Each world must have a unique name. Skipping this world."⟩]
              else errors
            else errors ++ werrs ++ [⟨.elementInvalid, "Failed to load a world."⟩]
          ({ st with worlds := st.worlds ++ [world] }, errors))
        (st, [])
    let st := stErrs.1
    let errors := stErrs.2
    match root.firstChildOfTag "model" with
    | some me =>
      match Model.Load ext ModelState.init me with
      | none => none
      | some (mst, merrs) =>
        let errors := errors ++ merrs ++ ext.modelGraphErrors mst
        let st := { st with model := some mst }
        let stErrs2 :=
          match root.firstChildOfTag "light" with
          | some le => ({ st with light := some () }, errors ++ ext.lightLoad le)
          | none => (st, errors)
        let st := stErrs2.1
        let errors := stErrs2.2
        match root.firstChildOfTag "actor" with
        | some ae => some ({ st with actor := some () }, errors ++ ext.actorLoad ae)
        | none => some (st, errors)
    | none =>
      let stErrs2 :=
        match root.firstChildOfTag "light" with
        | some le => ({ st with light := some () }, errors ++ ext.lightLoad le)
        | none => (st, errors)
      let st := stErrs2.1
      let errors := stErrs2.2
      match root.firstChildOfTag "actor" with
      | some ae => some ({ st with actor := some () }, errors ++ ext.actorLoad ae)
      | none => some (st, errors)

/-- Shorthand for concrete rigid transforms: the rigid-transform group is
instantiated at `Multiplicative ℤ` in concrete runs, so distinct integers are
distinct transforms and composition is observable. -/
def tf (n : ℤ) : Multiplicative ℤ := Multiplicative.ofAdd n

/-- Trivial instantiations of the out-of-src collaborators, used to run the
embedded loaders on concrete documents. -/
def trivialLoaders : ExternalLoaders (Multiplicative ℤ) where
  visualLoad := fun e fg => some (⟨(loadName e).getD ""⟩, fg, [])
  collisionLoad := fun e fg => some (⟨(loadName e).getD ""⟩, fg, [])
  jointLoad := fun e fg => some (⟨(loadName e).getD ""⟩, fg, [])
  inertiaValid := fun _ => true
  worldLoad := fun e => (⟨(loadName e).getD "", 0⟩, [])
  worldGraphErrors := fun _ => []
  modelGraphErrors := fun _ => []
  lightLoad := fun _ => []
  actorLoad := fun _ => []

/-- The frame graph `Model::Load` followed by `Link::Load` builds for a model
named `M` with stored transform `m` containing a single link named `L` with
stored transform `l`: the model vertex (id 0), the link vertex (id 1), the
parent-to-child edge with sign `-1` and the child-to-parent edge with sign
`+1` (`Model.cc` lines 133-134, `Link.cc` lines 171-192; see the theorem
connecting this literal to `Model.Load`). -/
def mlGraph (G : Type) [Group G] (m l : G) : FrameGraph G :=
  ⟨[⟨0, "M", m⟩, ⟨1, "L", l⟩], [⟨0, 1, -1⟩, ⟨1, 0, 1⟩], 2⟩

/-- The link DOM state `Link::Load` produces for the link of `mlGraph`. -/
def linkL (G : Type) [Group G] (l : G) : LinkState G :=
  ⟨"L", l, "M", [], [], 1, none⟩

/-- A two-vertex frame graph with no edges: the model and link vertices are
not connected, so no path exists between them. -/
def discGraph : FrameGraph (Multiplicative ℤ) :=
  ⟨[⟨0, "M", tf 3⟩, ⟨1, "L", tf 9⟩], [], 2⟩

/-- The `<link name="L"><pose>l</pose></link>` element of the concrete model
document (its parent element is the model, named `M`). -/
def linkElemC (l : ℤ) : Element (Multiplicative ℤ) :=
  .mk "link" [("name", "L")] (some (tf l, "")) [] (some "M")

/-- The concrete `<model name="M"><pose>m</pose>...</model>` document. -/
def modelElemC (m l : ℤ) : Element (Multiplicative ℤ) :=
  .mk "model" [("name", "M")] (some (tf m, "")) [linkElemC l] none

/-- The fatal-error message of `Link::Load` for a wrong element tag. -/
def linkTagMsg : String :=
  "Attempting to load a Link, but the provided SDF element is not a <link>."

/-- The fatal-error message of `Model::Load` for a wrong element tag. -/
def modelTagMsg : String :=
  "Attempting to load a Model, but the provided SDF element is not a <model>."

/-- The fatal-error message of `Root::Load` for a version mismatch. -/
def versionMsg (v : String) : String :=
  "SDF version attribute[" ++ v ++ "] should match the latest version[" ++
  SDF_PROTOCOL_VERSION ++ "] when loading DOM objects."

/-- The recoverable-error message of `Root::Load` for a duplicate world name. -/
def dupWorldMsg (n : String) : String :=
  "World with name[" ++ n ++ "] already exists." ++
  " Each world must have a unique name. Skipping this world."

/-- The console writes `Link::Pose` performs when resolving the link `L`
against the model frame `M` on the concrete two-vertex graph: the four header
writes, one row per Dijkstra result entry, the edge dump of the single
traversed edge, and the final-pose dump.  All go to std::cout. -/
def poseRunWrites : List ConsoleWrite :=
  [.sourceDestHeader "L" "M", .sourceId 1, .destId 0, .graphDump,
   .dijkstraRow 0 (some 1) 1, .dijkstraRow 1 (some 0) 1,
   .edgeInfo 0 0 1 1, .finalPoseDump]

/-- The console writes `Link::Pose` performs on the disconnected concrete
graph: the header writes, the Dijkstra rows (the destination row showing
infinite cost and `kNullId` previous vertex), the std::cerr `ERRROR!` write,
and the final-pose dump. -/
def noPathWrites : List ConsoleWrite :=
  [.sourceDestHeader "L" "M", .sourceId 1, .destId 0, .graphDump,
   .dijkstraRow 0 none kNullId, .dijkstraRow 1 (some 0) 1,
   .errror, .finalPoseDump]

/-- A one-vertex graph holding only the model vertex `M`, the state just
before `Link::Load` registers the link `L` in it. -/
def mOnlyGraph : FrameGraph (Multiplicative ℤ) := ⟨[⟨0, "M", tf 5⟩], [], 1⟩

/-- The out-of-src collaborators used by the C8 witness: the world loader
reads the world's name and keeps the length of its `payload` attribute as the
opaque payload, so two same-named worlds remain distinguishable. -/
def payloadLoaders : ExternalLoaders (Multiplicative ℤ) :=
  { trivialLoaders with
    worldLoad := fun e => (⟨(loadName e).getD "", ((e.getStr "payload" "").1).length⟩, []) }

/-- Concrete world element `earth`, no payload attribute. -/
def w1e : Element (Multiplicative ℤ) := .mk "world" [("name", "earth")] none [] none

/-- Concrete world element also named `earth`, payload of length one. -/
def w2e : Element (Multiplicative ℤ) :=
  .mk "world" [("name", "earth"), ("payload", "x")] none [] none

/-- Concrete world element `mars`, payload of length two. -/
def w3e : Element (Multiplicative ℤ) :=
  .mk "world" [("name", "mars"), ("payload", "xy")] none [] none

/-- A concrete document whose version attribute is present but unsupported. -/
def badVersionDoc : Element (Multiplicative ℤ) :=
  .mk "sdf" [("version", "1.6")] none [] none

/-- A concrete `<joint>` element, handed to the Model and Link loaders to
exercise their tag checks. -/
def jointElemC : Element (Multiplicative ℤ) :=
  .mk "joint" [("name", "j0")] none [] none

/-- A concrete model state with one link and one joint, for the accessor
witnesses. -/
def mStateW : ModelState (Multiplicative ℤ) :=
  { ModelState.init with links := [linkL _ (tf 7)], joints := [⟨"j0"⟩] }

/-- A concrete link state with one visual and one collision, for the accessor
witnesses. -/
def lStateW : LinkState (Multiplicative ℤ) :=
  { LinkState.init with visuals := [⟨"v0"⟩], collisions := [⟨"c0"⟩] }

/-- A concrete root state with one world, for the accessor witnesses. -/
def rStateW : RootState (Multiplicative ℤ) :=
  { RootState.init with worlds := [⟨"earth", 0⟩] }

/-- Replacing the first entry at a different key leaves a lookup unchanged. -/
theorem lookupAssoc_updateAssoc_ne (h s : Nat) (nv : CostInfo) (hne : s ≠ h) :
    ∀ l : List (Nat × CostInfo),
      lookupAssoc (updateAssoc l h nv) s = lookupAssoc l s := by
  intro l
  induction l with
  | nil => rfl
  | cons kv rest ih =>
    obtain ⟨k, v⟩ := kv
    simp only [updateAssoc]
    by_cases hk : k = h
    · subst hk
      have hks : (k == s) = false := beq_eq_false_iff_ne.mpr (Ne.symm hne)
      simp [lookupAssoc, hks]
    · have hkb : (k == h) = false := beq_eq_false_iff_ne.mpr hk
      simp only [hkb, Bool.false_eq_true, if_false, lookupAssoc, ih]

/-- Relaxing an edge never disturbs a zero-cost self-parented entry: the
update guard demands a strictly smaller cost, and no cost beats zero. -/
theorem relaxEdge_preserve (dist : List (Nat × CostInfo)) (e : DirEdge) (s : Nat)
    (hs : lookupAssoc dist s = some ⟨some 0, s⟩) :
    lookupAssoc (relaxEdge dist e) s = some ⟨some 0, s⟩ := by
  unfold relaxEdge
  cases ht : lookupAssoc dist e.tail with
  | none => simpa [ht] using hs
  | some ci =>
    obtain ⟨ct, pt⟩ := ci
    cases ct with
    | none => simpa [ht] using hs
    | some cu =>
      cases hh : lookupAssoc dist e.head with
      | none => simpa [ht, hh] using hs
      | some ch =>
        obtain ⟨cv, pv⟩ := ch
        by_cases hhead : e.head = s
        · subst hhead
          rw [hs] at hh
          injection hh with hh
          injection hh with hh1 hh2
          subst hh1
          simp [ht, hs, costLt]
        · simp only [ht, hh]
          by_cases hc : costLt (cu + 1) cv = true
          · simpa [hc, lookupAssoc_updateAssoc_ne e.head s _ (Ne.symm hhead) dist]
              using hs
          · simpa [hc] using hs

/-- One full relaxation round preserves the source's entry. -/
theorem relaxRound_preserve (s : Nat) :
    ∀ (es : List DirEdge) (dist : List (Nat × CostInfo)),
      lookupAssoc dist s = some ⟨some 0, s⟩ →
      lookupAssoc (relaxRound es dist) s = some ⟨some 0, s⟩ := by
  intro es
  induction es with
  | nil => intro dist h; simpa [relaxRound] using h
  | cons e rest ih =>
    intro dist h
    simp only [relaxRound, List.foldl_cons]
    exact ih (relaxEdge dist e) (relaxEdge_preserve dist e s h)

/-- Iterated relaxation preserves the source's entry. -/
theorem relaxRounds_preserve (es : List DirEdge) (s : Nat) :
    ∀ (n : Nat) (dist : List (Nat × CostInfo)),
      lookupAssoc dist s = some ⟨some 0, s⟩ →
      lookupAssoc (relaxRounds es n dist) s = some ⟨some 0, s⟩ := by
  intro n
  induction n with
  | zero => intro dist h; simpa [relaxRounds] using h
  | succ n ih =>
    intro dist h
    simp only [relaxRounds]
    exact ih (relaxRound es dist) (relaxRound_preserve s es dist h)

/-- In the initial Dijkstra map the source's entry is cost zero with itself as
previous vertex, provided the source id belongs to some vertex. -/
theorem lookupAssoc_initList (s : Nat) {G : Type} :
    ∀ l : List (Vertex G), (∃ w ∈ l, w.id = s) →
      lookupAssoc
        (l.map (fun v =>
          (v.id, if v.id == s then CostInfo.mk (some 0) s
                 else CostInfo.mk none kNullId))) s = some ⟨some 0, s⟩ := by
  intro l
  induction l with
  | nil => rintro ⟨w, hw, _⟩; cases hw
  | cons w rest ih =>
    rintro ⟨u, hu, hid⟩
    by_cases hw : w.id = s
    · have hb : (w.id == s) = true := beq_iff_eq.mpr hw
      simp [lookupAssoc, hb]
    · have hb : (w.id == s) = false := beq_eq_false_iff_ne.mpr hw
      have hu' : u ∈ rest := by
        cases hu with
        | head => exact absurd hid hw
        | tail _ htl => exact htl
      simp only [List.map_cons, lookupAssoc, hb, Bool.false_eq_true, if_false]
      exact ih ⟨u, hu', hid⟩

/-- The Dijkstra result maps the source vertex to cost zero with itself as
previous vertex — the initialisation of
`ignition::math::graph::Dijkstra`, untouched by relaxation. -/
theorem dijkstra_lookup_source {G : Type} (g : FrameGraph G) (s : Nat)
    (h : ∃ w ∈ g.vertices, w.id = s) :
    lookupAssoc (g.Dijkstra s) s = some ⟨some 0, s⟩ :=
  relaxRounds_preserve g.edges s g.vertices.length (dijkstraInit g s)
    (lookupAssoc_initList s g.vertices h)

/-- The minimum of a list of naturals belongs to it. -/
theorem minNat?_mem : ∀ {l : List Nat} {m : Nat}, minNat? l = some m → m ∈ l := by
  intro l
  induction l with
  | nil => intro m h; cases h
  | cons x xs ih =>
    intro m h
    simp only [minNat?] at h
    cases hx : minNat? xs with
    | none =>
      rw [hx] at h
      injection h with h
      subst h
      exact List.mem_cons_self x xs
    | some m2 =>
      rw [hx] at h
      injection h with h
      have h2 : min x m2 = m := h
      rcases le_total x m2 with h1 | h1
      · rw [min_eq_left h1] at h2
        subst h2
        exact List.mem_cons_self x xs
      · rw [min_eq_right h1] at h2
        subst h2
        exact List.mem_cons_of_mem x (ih hx)

/-- A successful least-id name lookup names an actual vertex. -/
theorem firstVertexIdNamed_mem {G : Type} (g : FrameGraph G) (n : String) (i : Nat)
    (h : g.firstVertexIdNamed n = some i) :
    ∃ w ∈ g.vertices, w.id = i ∧ w.name = n := by
  have hm : i ∈ g.namedIds n := minNat?_mem h
  simp only [FrameGraph.namedIds, List.mem_map] at hm
  obtain ⟨w, hw, hid⟩ := hm
  rw [List.mem_filter] at hw
  exact ⟨w, hw.1, hid, by simpa using hw.2⟩

/-- A successful least-id name lookup is an existing vertex id. -/
theorem hasVertex_of_firstVertexIdNamed {G : Type} (g : FrameGraph G) (n : String)
    (i : Nat) (h : g.firstVertexIdNamed n = some i) : g.hasVertex i = true := by
  obtain ⟨w, hw, hid, _⟩ := firstVertexIdNamed_mem g n i h
  simp only [FrameGraph.hasVertex, List.any_eq_true]
  exact ⟨w, hw, by simp [hid]⟩

/-- Adding a vertex makes its fresh id present. -/
theorem hasVertex_AddVertex_self {G : Type} (g : FrameGraph G) (n : String) (d : G) :
    (g.AddVertex n d).2.hasVertex g.nextId = true := by
  simp [FrameGraph.AddVertex, FrameGraph.hasVertex]

/-- Adding an edge never changes the vertex list. -/
theorem AddEdge_vertices {G : Type} (g : FrameGraph G) (t h : Nat) (d : Int) :
    (g.AddEdge t h d).vertices = g.vertices := by
  unfold FrameGraph.AddEdge
  split <;> rfl

/-- Adding an edge never changes vertex existence. -/
theorem AddEdge_hasVertex {G : Type} (g : FrameGraph G) (t h : Nat) (d : Int)
    (i : Nat) : (g.AddEdge t h d).hasVertex i = g.hasVertex i := by
  simp [FrameGraph.hasVertex, AddEdge_vertices]

/-- Adding an edge between existing vertices appends exactly that edge. -/
theorem AddEdge_edges_of_has {G : Type} (g : FrameGraph G) (t h : Nat) (d : Int)
    (ht : g.hasVertex t = true) (hh : g.hasVertex h = true) :
    (g.AddEdge t h d).edges = g.edges ++ [⟨t, h, d⟩] := by
  simp [FrameGraph.AddEdge, ht, hh]

/-- C1: pose resolution is claimed to be a pure function of the frame graph,
writing nothing to stdout or stderr; the source instead writes the
source/destination header, the graph dump, one line per Dijkstra entry, the
traversed edge and the final pose to std::cout on every resolution with a
non-empty destination frame.  This theorem evaluates `Link::Pose` at the
concrete two-vertex graph: the resolution succeeds (returning the composition
of the model and link transforms) and performs eight std::cout writes. -/
theorem c1_pose_resolution_writes_console :
    Link.Pose (mlGraph (Multiplicative ℤ) (tf 5) (tf 7)) (linkL _ (tf 7)) "M" =
      some (tf 12, poseRunWrites) ∧
    poseRunWrites ≠ [] ∧
    poseRunWrites.all (fun w => !w.isStderr) = true := by
  refine ⟨by decide, by decide, by decide⟩

/-- C2: when the source and destination vertices are not connected, the claim
says resolution fails with a `NoPath` error and never silently returns a
transform.  The source's `Pose` has no error channel at all: on the concrete
disconnected two-vertex graph it prints `ERRROR!` to std::cerr and returns
the identity transform as if it were the answer. -/
theorem c2_no_path_returns_identity_transform :
    Link.Pose discGraph (linkL _ (tf 9)) "M" = some (1, noPathWrites) ∧
    noPathWrites.any ConsoleWrite.isStderr = true := by
  refine ⟨by decide, by decide⟩

/-- C3: for every valid frame F (a non-empty name resolving to a vertex with
no self-loop edge, true of every graph the loaders build), `Link::Pose`
called with the link's own name returns the identity transform: Dijkstra maps
the source vertex to itself as previous vertex, the walk finds no self edge
and stops at once with the identity accumulator, which the call returns. -/
theorem c3_pose_self_is_identity {G : Type} [Group G] (g : FrameGraph G)
    (st : LinkState G) (v : Nat) (hname : st.name ≠ "")
    (hv : g.firstVertexIdNamed st.name = some v)
    (hself : g.EdgeFromVertices v v = none) :
    (Link.Pose g st st.name).map Prod.fst = some 1 := by
  have hmem : ∃ w ∈ g.vertices, w.id = v := by
    obtain ⟨w, hw, hid, _⟩ := firstVertexIdNamed_mem g st.name v hv
    exact ⟨w, hw, hid⟩
  have hres := dijkstra_lookup_source g v hmem
  have hne : (st.name == "") = false := beq_eq_false_iff_ne.mpr hname
  simp only [Link.Pose, hne, Bool.false_eq_true, if_false, hv]
  simp only [poseWalk, hres, hself]
  simp

/-- Witness for C3 at the concrete two-vertex graph. -/
theorem c3_witness :
    (Link.Pose (mlGraph (Multiplicative ℤ) (tf 5) (tf 7)) (linkL _ (tf 7)) "L").map
      Prod.fst = some 1 :=
  c3_pose_self_is_identity (mlGraph (Multiplicative ℤ) (tf 5) (tf 7))
    (linkL _ (tf 7)) 1 (by decide) (by decide) (by decide)

/-- C5 counterexample: on the two-vertex graph whose scope root `M` stores a
non-identity transform, `Link::Pose("")` (the stored link pose) differs from
resolving the link against the scope's implicit root `M` through the pose
graph (which composes the root vertex's transform as well), refuting the
claim that the two coincide. -/
theorem c5_counterexample :
    ¬ ((Link.Pose (mlGraph (Multiplicative ℤ) (tf 1) (tf 0)) (linkL _ (tf 0)) "").map
        Prod.fst =
       (Link.Pose (mlGraph (Multiplicative ℤ) (tf 1) (tf 0)) (linkL _ (tf 0)) "M").map
        Prod.fst) := by
  decide

/-- C5 amended: an empty destination frame makes `Link::Pose` return the
object's stored local pose directly, without consulting the pose graph; this
coincides with resolution against the scope's implicit root only when the
root vertex's stored transform is the identity. -/
theorem c5_empty_frame_returns_stored_pose {G : Type} [Group G] (m l : G) :
    (Link.Pose (mlGraph G m l) (linkL G l) "").map Prod.fst = some l ∧
    (m = 1 →
      (Link.Pose (mlGraph G m l) (linkL G l) "M").map Prod.fst = some l) := by
  constructor
  · rfl
  · intro hm
    subst hm
    have h : (Link.Pose (mlGraph G 1 l) (linkL G l) "M").map Prod.fst =
        some (1 * 1 * l) := rfl
    rw [h, one_mul, one_mul]

/-- Witness for the amended C5 with an identity root transform. -/
theorem c5_witness :
    (Link.Pose (mlGraph (Multiplicative ℤ) 1 (tf 7)) (linkL _ (tf 7)) "").map
      Prod.fst = some (tf 7) ∧
    (Link.Pose (mlGraph (Multiplicative ℤ) 1 (tf 7)) (linkL _ (tf 7)) "M").map
      Prod.fst = some (tf 7) :=
  ⟨(c5_empty_frame_returns_stored_pose 1 (tf 7)).1,
   (c5_empty_frame_returns_stored_pose 1 (tf 7)).2 rfl⟩

/-- C6: whenever the loaders register a parent/child frame relation in the
pose graph — `Link::Load` registering a link against its pose frame, or
`Model::Load` connecting an explicit `<frame>` vertex — exactly two directed
edges are appended: the parent-to-child edge carrying sign `-1` (apply the
inverse of the stored transform) and the child-to-parent edge, the direction
walked when resolving the child, carrying sign `+1` (apply the transform as
stored). -/
theorem c6_two_edges_per_relation :
    (∀ (G : Type) (g : FrameGraph G) (n : String) (p : G) (pf : String)
        (g' : FrameGraph G), Link.RegisterFrame g n p pf = some g' →
      ∃ parentId, (g.AddVertex n p).2.firstVertexIdNamed pf = some parentId ∧
        g'.vertices = g.vertices ++ [⟨g.nextId, n, p⟩] ∧
        g'.edges = g.edges ++
          [⟨parentId, g.nextId, -1⟩, ⟨g.nextId, parentId, 1⟩]) ∧
    (∀ (G : Type) (g : FrameGraph G) (vid : Nat) (pf : String)
        (g' : FrameGraph G), g.hasVertex vid = true →
      Model.RegisterFrameEdges g [(vid, pf)] = some g' →
      ∃ parentId, g.firstVertexIdNamed pf = some parentId ∧
        g'.edges = g.edges ++ [⟨parentId, vid, -1⟩, ⟨vid, parentId, 1⟩]) := by
  constructor
  · intro G g n p pf g' hreg
    simp only [Link.RegisterFrame] at hreg
    cases hpar : (g.AddVertex n p).2.firstVertexIdNamed pf with
    | none => rw [hpar] at hreg; cases hreg
    | some parentId =>
      rw [hpar] at hreg
      injection hreg with hreg
      subst hreg
      have h1 : (g.AddVertex n p).2.hasVertex parentId = true :=
        hasVertex_of_firstVertexIdNamed _ pf parentId hpar
      have h2 : (g.AddVertex n p).2.hasVertex g.nextId = true :=
        hasVertex_AddVertex_self g n p
      refine ⟨parentId, rfl, ?_, ?_⟩
      · rw [AddEdge_vertices, AddEdge_vertices]
        rfl
      · rw [AddEdge_edges_of_has, AddEdge_edges_of_has _ _ _ _ h1 h2]
        · simp [FrameGraph.AddVertex]
        · rw [AddEdge_hasVertex]; exact h2
        · rw [AddEdge_hasVertex]; exact h1
  · intro G g vid pf g' hvid hreg
    simp only [Model.RegisterFrameEdges] at hreg
    cases hpar : g.firstVertexIdNamed pf with
    | none => rw [hpar] at hreg; cases hreg
    | some parentId =>
      rw [hpar] at hreg
      injection hreg with hreg
      subst hreg
      have h1 : g.hasVertex parentId = true :=
        hasVertex_of_firstVertexIdNamed g pf parentId hpar
      refine ⟨parentId, rfl, ?_⟩
      rw [AddEdge_edges_of_has, AddEdge_edges_of_has _ _ _ _ h1 hvid]
      · simp
      · rw [AddEdge_hasVertex]; exact hvid
      · rw [AddEdge_hasVertex]; exact h1

/-- Witness for C6: registering link `L` against pose frame `M` on the
one-vertex graph yields exactly the two signed edges of `mlGraph`, and the
explicit-frame edge loop appends exactly two more signed edges. -/
theorem c6_witness :
    (∃ parentId,
        (mOnlyGraph.AddVertex "L" (tf 7)).2.firstVertexIdNamed "M" =
          some parentId ∧
        (mlGraph (Multiplicative ℤ) (tf 5) (tf 7)).vertices =
          mOnlyGraph.vertices ++ [⟨mOnlyGraph.nextId, "L", tf 7⟩] ∧
        (mlGraph (Multiplicative ℤ) (tf 5) (tf 7)).edges =
          mOnlyGraph.edges ++
            [⟨parentId, mOnlyGraph.nextId, -1⟩, ⟨mOnlyGraph.nextId, parentId, 1⟩]) ∧
    (∃ parentId,
        (mlGraph (Multiplicative ℤ) (tf 5) (tf 7)).firstVertexIdNamed "M" =
          some parentId ∧
        (FrameGraph.mk (mlGraph (Multiplicative ℤ) (tf 5) (tf 7)).vertices
            [⟨0, 1, -1⟩, ⟨1, 0, 1⟩, ⟨0, 1, -1⟩, ⟨1, 0, 1⟩] 2).edges =
          (mlGraph (Multiplicative ℤ) (tf 5) (tf 7)).edges ++
            [⟨parentId, 1, -1⟩, ⟨1, parentId, 1⟩]) :=
  ⟨c6_two_edges_per_relation.1 (Multiplicative ℤ) mOnlyGraph "L" (tf 7) "M"
      (mlGraph (Multiplicative ℤ) (tf 5) (tf 7)) (by decide),
   c6_two_edges_per_relation.2 (Multiplicative ℤ)
      (mlGraph (Multiplicative ℤ) (tf 5) (tf 7)) 1 "M"
      (FrameGraph.mk (mlGraph (Multiplicative ℤ) (tf 5) (tf 7)).vertices
        [⟨0, 1, -1⟩, ⟨1, 0, 1⟩, ⟨0, 1, -1⟩, ⟨1, 0, 1⟩] 2)
      (by decide) (by decide)⟩

/-- C7: when the provided element's tag does not match the loader's expected
tag, `Model::Load` and `Link::Load` abort immediately, returning exactly one
`ElementIncorrectType` error and loading nothing from the subtree (children
and name are untouched; for `Link::Load` the entire state except the stored
element pointer, and the graph handle, are returned unchanged). -/
theorem c7_wrong_tag_single_fatal_error :
    (∀ (G : Type) [Group G] (ext : ExternalLoaders G) (st : ModelState G)
        (e : Element G), e.tag ≠ "model" →
      ∃ st' : ModelState G, Model.Load ext st e =
          some (st', [⟨.elementIncorrectType, modelTagMsg⟩]) ∧
        st'.links = st.links ∧ st'.joints = st.joints ∧ st'.name = st.name) ∧
    (∀ (G : Type) [Group G] (ext : ExternalLoaders G) (st : LinkState G)
        (e : Element G) (fg : Option (FrameGraph G)), e.tag ≠ "link" →
      Link.Load ext st e fg =
        some ({ st with sdf := some e }, fg,
          [⟨.elementIncorrectType, linkTagMsg⟩])) := by
  constructor
  · intro G _ ext st e hn
    have hb : (e.tag != "model") = true := bne_iff_ne.mpr hn
    cases hfg : st.frameGraph with
    | none =>
      refine ⟨{ st with frameGraph := some FrameGraph.empty, sdf := some e },
        ?_, rfl, rfl, rfl⟩
      simp [Model.Load, hfg, hb, modelTagMsg]
    | some g0 =>
      refine ⟨{ st with sdf := some e }, ?_, rfl, rfl, rfl⟩
      simp [Model.Load, hfg, hb, modelTagMsg]
  · intro G _ ext st e fg hn
    have hb : (e.tag != "link") = true := bne_iff_ne.mpr hn
    simp [Link.Load, hb, linkTagMsg]

/-- Witness for C7 with a `<joint>` element handed to both loaders. -/
theorem c7_witness :
    (∃ st' : ModelState (Multiplicative ℤ),
      Model.Load trivialLoaders ModelState.init jointElemC =
        some (st', [⟨.elementIncorrectType, modelTagMsg⟩]) ∧
      st'.links = [] ∧ st'.joints = [] ∧ st'.name = "") ∧
    Link.Load trivialLoaders LinkState.init jointElemC none =
      some ({ LinkState.init with sdf := some jointElemC }, none,
        [⟨.elementIncorrectType, linkTagMsg⟩]) :=
  ⟨c7_wrong_tag_single_fatal_error.1 (Multiplicative ℤ) trivialLoaders
      ModelState.init jointElemC (by decide),
   c7_wrong_tag_single_fatal_error.2 (Multiplicative ℤ) trivialLoaders
      LinkState.init jointElemC none (by decide)⟩

/-- C10: the loaders store the provided SDF element pointer before the tag
check, so after a fatal `ElementIncorrectType` failure on a fresh object,
`Element()` returns the rejected element while every other field — name,
pose, pose frame, children, flags, inertial pose — still holds its default:
the failed load is not atomic on the element field. -/
theorem c10_element_stored_before_tag_check :
    (∀ (G : Type) [Group G] (ext : ExternalLoaders G) (e : Element G),
      e.tag ≠ "model" →
      (Model.Load ext ModelState.init e).map (fun r =>
        (Model.Element r.1, r.1.name, r.1.pose, r.1.poseFrame, r.1.links,
         r.1.joints, r.1.isStatic, r.1.selfCollide, r.1.allowAutoDisable,
         r.1.enableWind)) =
        some (some e, "", 1, "", [], [], false, false, true, false)) ∧
    (∀ (G : Type) [Group G] (ext : ExternalLoaders G) (e : Element G)
        (fg : Option (FrameGraph G)), e.tag ≠ "link" →
      (Link.Load ext LinkState.init e fg).map (fun r =>
        (Link.Element r.1, r.1.name, r.1.pose, r.1.poseFrame, r.1.visuals,
         r.1.collisions, r.1.inertialPose)) =
        some (some e, "", 1, "", [], [], 1)) := by
  constructor
  · intro G _ ext e hn
    have hb : (e.tag != "model") = true := bne_iff_ne.mpr hn
    simp [Model.Load, ModelState.init, hb, Model.Element]
  · intro G _ ext e fg hn
    have hb : (e.tag != "link") = true := bne_iff_ne.mpr hn
    simp [Link.Load, LinkState.init, hb, Link.Element]

/-- Witness for C10 with a `<joint>` element handed to both fresh loaders. -/
theorem c10_witness :
    (Model.Load trivialLoaders ModelState.init jointElemC).map (fun r =>
      (Model.Element r.1, r.1.name, r.1.pose, r.1.poseFrame, r.1.links,
       r.1.joints, r.1.isStatic, r.1.selfCollide, r.1.allowAutoDisable,
       r.1.enableWind)) =
      some (some jointElemC, "", 1, "", [], [], false, false, true, false) ∧
    (Link.Load trivialLoaders LinkState.init jointElemC none).map (fun r =>
      (Link.Element r.1, r.1.name, r.1.pose, r.1.poseFrame, r.1.visuals,
       r.1.collisions, r.1.inertialPose)) =
      some (some jointElemC, "", 1, "", [], [], 1) :=
  ⟨c10_element_stored_before_tag_check.1 (Multiplicative ℤ) trivialLoaders
      jointElemC (by decide),
   c10_element_stored_before_tag_check.2 (Multiplicative ℤ) trivialLoaders
      jointElemC none (by decide)⟩

/-- C4: when the document's `version` attribute is present but differs from
the supported protocol version, `Root::Load` returns exactly one
`AttributeInvalid` error and leaves the Root with no populated children: no
worlds, no model, no light, no actor (only the element pointer, stored before
the check, is set). -/
theorem c4_version_mismatch_single_error {G : Type} [Group G]
    (ext : ExternalLoaders G) (root : Element G) (v : String)
    (hv : lookupAttr root.attrsList "version" = some v)
    (hne : v ≠ SDF_PROTOCOL_VERSION) :
    Root.Load ext RootState.init root =
      some ({ RootState.init with sdf := some root },
        [⟨.attributeInvalid, versionMsg v⟩]) := by
  have hb : (SDF_PROTOCOL_VERSION != v) = true := bne_iff_ne.mpr (Ne.symm hne)
  simp [Root.Load, Element.getStr, hv, hb, versionMsg, RootState.init]

/-- Witness for C4 with a concrete version-1.6 document. -/
theorem c4_witness :
    Root.Load trivialLoaders RootState.init badVersionDoc =
      some ({ RootState.init with sdf := some badVersionDoc },
        [⟨.attributeInvalid, versionMsg "1.6"⟩]) :=
  c4_version_mismatch_single_error trivialLoaders badVersionDoc "1.6" rfl
    (by decide)

/-- C8: two sibling worlds sharing a name under one Root produce a single
`DuplicateName` error; the duplicate is shadowed in first-match name lookup
(lookup returns the first world), and the load of the remaining siblings is
not aborted (all three siblings are loaded, the third found by its name). -/
theorem c8_duplicate_sibling_names {G : Type} [Group G]
    (ext : ExternalLoaders G) (w1 w2 w3 : Element G) (n n2 : String)
    (p1 p2 p3 : Nat)
    (ht1 : w1.tag = "world") (ht2 : w2.tag = "world") (ht3 : w3.tag = "world")
    (hw1 : ext.worldLoad w1 = (⟨n, p1⟩, []))
    (hw2 : ext.worldLoad w2 = (⟨n, p2⟩, []))
    (hw3 : ext.worldLoad w3 = (⟨n2, p3⟩, []))
    (hg1 : ext.worldGraphErrors ⟨n, p1⟩ = [])
    (hg2 : ext.worldGraphErrors ⟨n, p2⟩ = [])
    (hg3 : ext.worldGraphErrors ⟨n2, p3⟩ = [])
    (hn : n2 ≠ n) :
    ∃ st : RootState G,
      Root.Load ext RootState.init
        (.mk "sdf" [("version", SDF_PROTOCOL_VERSION)] none [w1, w2, w3] none) =
        some (st, [⟨.duplicateName, dupWorldMsg n⟩]) ∧
      st.worlds = [⟨n, p1⟩, ⟨n, p2⟩, ⟨n2, p3⟩] ∧
      Root.WorldByName st n = some ⟨n, p1⟩ ∧
      Root.WorldByName st n2 = some ⟨n2, p3⟩ := by
  have hnb : (n == n2) = false := beq_eq_false_iff_ne.mpr (Ne.symm hn)
  refine ⟨{ RootState.init with
      version := SDF_PROTOCOL_VERSION,
      worlds := [⟨n, p1⟩, ⟨n, p2⟩, ⟨n2, p3⟩],
      sdf := some (.mk "sdf" [("version", SDF_PROTOCOL_VERSION)] none
        [w1, w2, w3] none) }, ?_, rfl, ?_, ?_⟩
  · simp [Root.Load, Element.getStr, Element.attrsList, lookupAttr,
      Element.childrenOfTag, Element.children, Element.firstChildOfTag,
      List.filter, ht1, ht2, ht3, hw1, hw2, hw3, hg1, hg2, hg3,
      Root.WorldNameExists, hnb, dupWorldMsg, RootState.init]
    exact fun hc => hn hc.symm
  · simp [Root.WorldByName]
  · simp [Root.WorldByName, hnb]

/-- Witness for C8: two worlds named `earth` and one named `mars`. -/
theorem c8_witness :
    ∃ st : RootState (Multiplicative ℤ),
      Root.Load payloadLoaders RootState.init
        (.mk "sdf" [("version", SDF_PROTOCOL_VERSION)] none [w1e, w2e, w3e]
          none) =
        some (st, [⟨.duplicateName, dupWorldMsg "earth"⟩]) ∧
      st.worlds = [⟨"earth", 0⟩, ⟨"earth", 1⟩, ⟨"mars", 2⟩] ∧
      Root.WorldByName st "earth" = some ⟨"earth", 0⟩ ∧
      Root.WorldByName st "mars" = some ⟨"mars", 2⟩ :=
  c8_duplicate_sibling_names payloadLoaders w1e w2e w3e "earth" "mars" 0 1 2
    rfl rfl rfl rfl rfl rfl rfl rfl rfl (by decide)

/-- C9: every by-index accessor at the public interface is total and
bounds-checked: `LinkByIndex`, `JointByIndex`, `VisualByIndex`,
`CollisionByIndex` and `WorldByIndex` return the null pointer when the index
reaches the corresponding count and the i-th loaded child (the lists are
built by appending in load order) when the index is in range. -/
theorem c9_by_index_bounds_checked :
    (∀ (G : Type) (st : ModelState G) (i : Nat),
      (Model.LinkCount st ≤ i → Model.LinkByIndex st i = none) ∧
      (∀ h : i < Model.LinkCount st,
        Model.LinkByIndex st i = some (st.links.get ⟨i, h⟩))) ∧
    (∀ (G : Type) (st : ModelState G) (i : Nat),
      (Model.JointCount st ≤ i → Model.JointByIndex st i = none) ∧
      (∀ h : i < Model.JointCount st,
        Model.JointByIndex st i = some (st.joints.get ⟨i, h⟩))) ∧
    (∀ (G : Type) (st : LinkState G) (i : Nat),
      (Link.VisualCount st ≤ i → Link.VisualByIndex st i = none) ∧
      (∀ h : i < Link.VisualCount st,
        Link.VisualByIndex st i = some (st.visuals.get ⟨i, h⟩))) ∧
    (∀ (G : Type) (st : LinkState G) (i : Nat),
      (Link.CollisionCount st ≤ i → Link.CollisionByIndex st i = none) ∧
      (∀ h : i < Link.CollisionCount st,
        Link.CollisionByIndex st i = some (st.collisions.get ⟨i, h⟩))) ∧
    (∀ (G : Type) (st : RootState G) (i : Nat),
      (Root.WorldCount st ≤ i → Root.WorldByIndex st i = none) ∧
      (∀ h : i < Root.WorldCount st,
        Root.WorldByIndex st i = some (st.worlds.get ⟨i, h⟩))) := by
  refine ⟨fun G st i => ⟨fun hle => ?_, fun h => ?_⟩,
          fun G st i => ⟨fun hle => ?_, fun h => ?_⟩,
          fun G st i => ⟨fun hle => ?_, fun h => ?_⟩,
          fun G st i => ⟨fun hle => ?_, fun h => ?_⟩,
          fun G st i => ⟨fun hle => ?_, fun h => ?_⟩⟩
  · exact dif_neg (Nat.not_lt.mpr hle)
  · exact dif_pos h
  · exact dif_neg (Nat.not_lt.mpr hle)
  · exact dif_pos h
  · exact dif_neg (Nat.not_lt.mpr hle)
  · exact dif_pos h
  · exact dif_neg (Nat.not_lt.mpr hle)
  · exact dif_pos h
  · exact dif_neg (Nat.not_lt.mpr hle)
  · exact dif_pos h

/-- Witness for C9 on concrete one-child states, at index 0 (in range) and
index 1 (out of range) for each accessor. -/
theorem c9_witness :
    Model.LinkByIndex mStateW 0 = some (linkL _ (tf 7)) ∧
    Model.LinkByIndex mStateW 1 = none ∧
    Model.JointByIndex mStateW 0 = some ⟨"j0"⟩ ∧
    Model.JointByIndex mStateW 1 = none ∧
    Link.VisualByIndex lStateW 0 = some ⟨"v0"⟩ ∧
    Link.VisualByIndex lStateW 1 = none ∧
    Link.CollisionByIndex lStateW 0 = some ⟨"c0"⟩ ∧
    Link.CollisionByIndex lStateW 1 = none ∧
    Root.WorldByIndex rStateW 0 = some ⟨"earth", 0⟩ ∧
    Root.WorldByIndex rStateW 1 = none :=
  ⟨(c9_by_index_bounds_checked.1 _ mStateW 0).2 (by decide),
   (c9_by_index_bounds_checked.1 _ mStateW 1).1 (by decide),
   (c9_by_index_bounds_checked.2.1 _ mStateW 0).2 (by decide),
   (c9_by_index_bounds_checked.2.1 _ mStateW 1).1 (by decide),
   (c9_by_index_bounds_checked.2.2.1 _ lStateW 0).2 (by decide),
   (c9_by_index_bounds_checked.2.2.1 _ lStateW 1).1 (by decide),
   (c9_by_index_bounds_checked.2.2.2.1 _ lStateW 0).2 (by decide),
   (c9_by_index_bounds_checked.2.2.2.1 _ lStateW 1).1 (by decide),
   (c9_by_index_bounds_checked.2.2.2.2 _ rStateW 0).2 (by decide),
   (c9_by_index_bounds_checked.2.2.2.2 _ rStateW 1).1 (by decide)⟩
